import Mathlib

/-!
Shallow embedding of the content-access, completion and quiz-grading core of
the grow-mls backend (`backend/models.py`, `backend/main.py`, `backend/schemas.py`).

The relational store is a record of row lists; `session.get` on a primary key is
`List.find?` on the id column; a `select ... where ... order_by` is a `filter`
followed by a stable insertion sort on the ordering column (SQL ORDER BY; the
`order_index` / primary-key columns the code sorts on are unique, so the order
is determined).  Timestamps are abstract `Nat` values passed in by the caller
(`datetime.utcnow`).  JSON (de)serialization of the `choices` and `answers`
columns is the serialization collaborator excluded by the spec: `choices` is
kept as its raw stored string (which `json.loads` maps deterministically to the
choice list) and the `answers` column stores the submitted list itself
(`json.dumps` round-trips an int list exactly).

Python computes the score as `round((correct / len(questions)) * 100, 2)` in
IEEE double precision, and Python `round` is correctly rounded with ties (of
the double's exact value) to even.  We represent the score in hundredths of a
percent as `roundHalfEvenDiv (10000 * correct) n`: round-half-to-even of the
exact rational `100 * correct / n`.  Away from decimal ties the two agree
whenever `n` is moderate: the doubles' relative error (below `3 * 2^-53`) is
far smaller than the distance `1/(200*n)` from a non-tie ratio to the nearest
rounding boundary.  At a decimal tie (`20000*c/n` an odd integer, which forces
`n / gcd(c, n)` into `{32, 160, 800, 4000, 20000}`) the double for `(c/n)*100`
need not hit the tie exactly, and then its own position decides the rounding
instead of the ties-to-even rule; comparing `roundHalfEvenDiv` against CPython
for every pair `0 ≤ correct ≤ n` shows exact agreement for every question
count `n < 160` and a first divergence at `n = 160, correct = 23` (the double
is 14.374999999999998, so the code returns 14.37 while the exact tie 14.375
rounds half-even to 14.38).  The grading theorem below therefore asserts the
ties-to-even characterization only for quizzes with fewer than 160 questions;
theorems that do not pin the numeric score value are unaffected.
-/

namespace GrowMLS

/-- `models.User` row. -/
structure User where
  id : Nat
  email : String
  password_hash : String
  name : Option String
  is_subscriber : Bool
  created_at : Nat
  deriving DecidableEq

/-- `models.Lesson` row. -/
structure Lesson where
  id : Nat
  course_id : Nat
  title : String
  content : String
  order_index : Int
  deriving DecidableEq

/-- `models.Quiz` row. -/
structure Quiz where
  id : Nat
  course_id : Nat
  lesson_id : Option Nat
  title : String
  pass_percent : Int
  deriving DecidableEq

/-- `models.Question` row; `choices` is the raw stored JSON text. -/
structure Question where
  id : Nat
  quiz_id : Nat
  text : String
  choices : String
  correct_index : Int
  deriving DecidableEq

/-- `models.Progress` row. -/
structure Progress where
  id : Nat
  user_id : Nat
  lesson_id : Nat
  completed_at : Nat
  deriving DecidableEq

/-- `models.QuizAttempt` row; `score100` is the score in hundredths of a
percent (`score = score100 / 100`), and `answers` the submitted list that the
code stores JSON-serialized. -/
structure QuizAttempt where
  id : Nat
  user_id : Nat
  quiz_id : Nat
  score100 : Nat
  passed : Bool
  answers : List Int
  attempted_at : Nat
  deriving DecidableEq

/-- The relational store backing the endpoints. -/
structure Store where
  lessons : List Lesson
  quizzes : List Quiz
  questions : List Question
  progress : List Progress
  attempts : List QuizAttempt
  deriving DecidableEq

/-- `session.get(Lesson, lesson_id)`. -/
def findLesson (lesson_id : Nat) (s : Store) : Option Lesson :=
  s.lessons.find? (fun l => decide (l.id = lesson_id))

/-- `session.get(Quiz, quiz_id)`. -/
def findQuiz (quiz_id : Nat) (s : Store) : Option Quiz :=
  s.quizzes.find? (fun q => decide (q.id = quiz_id))

/-- ORDER BY `Lesson.order_index` comparison. -/
def lessonLE (a b : Lesson) : Prop :=
  a.order_index ≤ b.order_index

instance : DecidableRel lessonLE := fun a b =>
  inferInstanceAs (Decidable (a.order_index ≤ b.order_index))

instance : IsTotal Lesson lessonLE :=
  ⟨fun a b => Int.le_total a.order_index b.order_index⟩

instance : IsTrans Lesson lessonLE :=
  ⟨fun _ _ _ h1 h2 => le_trans h1 h2⟩

/-- ORDER BY `Question.id` comparison. -/
def questionLE (a b : Question) : Prop :=
  a.id ≤ b.id

instance : DecidableRel questionLE := fun a b =>
  inferInstanceAs (Decidable (a.id ≤ b.id))

instance : IsTotal Question questionLE :=
  ⟨fun a b => Nat.le_total a.id b.id⟩

instance : IsTrans Question questionLE :=
  ⟨fun _ _ _ h1 h2 => le_trans h1 h2⟩

/-- `select(Lesson).where(course_id == c).order_by(order_index)`. -/
def courseLessons (course_id : Nat) (s : Store) : List Lesson :=
  List.insertionSort lessonLE (s.lessons.filter (fun l => decide (l.course_id = course_id)))

/-- `select(Question).where(quiz_id == q).order_by(Question.id)`. -/
def quizQuestions (quiz_id : Nat) (s : Store) : List Question :=
  List.insertionSort questionLE (s.questions.filter (fun q => decide (q.quiz_id = quiz_id)))

/-- `schemas.LessonOut`. -/
structure LessonOut where
  id : Nat
  title : String
  content : String
  order_index : Int
  quiz_id : Option Nat
  deriving DecidableEq

/-- Outcome of `GET /lessons/{lesson_id}`. -/
inductive LessonView where
  | notFound
  | forbidden
  | ok (out : LessonOut)
  deriving DecidableEq

/-- `main.get_lesson` (main.py lines 872-891). -/
def get_lesson (u : User) (lesson_id : Nat) (s : Store) : LessonView :=
  match findLesson lesson_id s with
  | none => .notFound
  | some lesson =>
    let all_lessons := courseLessons lesson.course_id s
    let denied : Bool :=
      !u.is_subscriber &&
        match all_lessons with
        | [] => false
        | first :: _ => decide (lesson.id ≠ first.id)
    if denied then .forbidden
    else
      .ok { id := lesson.id, title := lesson.title, content := lesson.content,
            order_index := lesson.order_index,
            quiz_id := (s.quizzes.find? (fun q => decide (q.lesson_id = some lesson.id))).map Quiz.id }

/-- `main.complete_lesson` (main.py lines 894-901); `now` is the commit-time
`datetime.utcnow` default.  New primary keys are store-assigned. -/
def complete_lesson (u : User) (lesson_id : Nat) (now : Nat) (s : Store) : String × Store :=
  match s.progress.find? (fun p => decide (p.user_id = u.id ∧ p.lesson_id = lesson_id)) with
  | some _ => ("already completed", s)
  | none =>
    let prog : Progress :=
      { id := s.progress.length + 1, user_id := u.id, lesson_id := lesson_id, completed_at := now }
    ("completed", { s with progress := s.progress ++ [prog] })

/-- `schemas.QuestionOut`: id, text and choices only — no `correct_index`
field exists in the response model.  `choices` is the raw stored text that the
endpoint decodes with `json.loads` (a deterministic function of the text). -/
structure QuestionOut where
  id : Nat
  text : String
  choices : String
  deriving DecidableEq

/-- `schemas.QuizOut`. -/
structure QuizOut where
  id : Nat
  title : String
  pass_percent : Int
  questions : List QuestionOut
  lesson_id : Option Nat
  deriving DecidableEq

/-- Outcome of `GET /quizzes/{quiz_id}`. -/
inductive QuizView where
  | notFound
  | forbidden
  | ok (out : QuizOut)
  deriving DecidableEq

/-- `main.get_quiz` (main.py lines 906-925). -/
def get_quiz (u : User) (quiz_id : Nat) (s : Store) : QuizView :=
  match findQuiz quiz_id s with
  | none => .notFound
  | some quiz =>
    if !u.is_subscriber then .forbidden
    else
      .ok { id := quiz.id, title := quiz.title, pass_percent := quiz.pass_percent,
            questions := (quizQuestions quiz_id s).map
              (fun q => { id := q.id, text := q.text, choices := q.choices }),
            lesson_id := quiz.lesson_id }

/-- Python `round(a / b * 100, 2)` represented exactly in hundredths:
round-half-to-even of `a / b`, for `a = 10000 * correct`, `b = question count`
(see the header comment for why this is exact for the float computation). -/
def roundHalfEvenDiv (a b : Nat) : Nat :=
  let q := a / b
  let r := a % b
  if 2 * r < b then q
  else if b < 2 * r then q + 1
  else if q % 2 = 0 then q else q + 1

/-- Outcome of `POST /quizzes/{quiz_id}/submit`.  `zeroDivision` is the
uncaught Python `ZeroDivisionError` raised by `correct / len(questions)` when
the quiz has no questions. -/
inductive SubmitResult where
  | notFound
  | badRequest
  | zeroDivision
  | ok (score100 : Nat) (passed : Bool) (correct : Nat) (total : Nat)
  deriving DecidableEq

/-- `main.submit_quiz` (main.py lines 930-944).  Returns the response together
with the store after the call (unchanged on every failure path, since the
exception is raised before `session.add`). -/
def submit_quiz (u : User) (quiz_id : Nat) (answers : List Int) (now : Nat) (s : Store) :
    SubmitResult × Store :=
  match findQuiz quiz_id s with
  | none => (.notFound, s)
  | some quiz =>
    let questions := quizQuestions quiz_id s
    if answers.length ≠ questions.length then (.badRequest, s)
    else if questions.length = 0 then (.zeroDivision, s)
    else
      let correct := (questions.zip answers).countP (fun p => decide (p.1.correct_index = p.2))
      let score100 := roundHalfEvenDiv (10000 * correct) questions.length
      let passed : Bool := decide (100 * quiz.pass_percent ≤ (score100 : Int))
      let attempt : QuizAttempt :=
        { id := s.attempts.length + 1, user_id := u.id, quiz_id := quiz_id,
          score100 := score100, passed := passed, answers := answers, attempted_at := now }
      (.ok score100 passed correct questions.length,
       { s with attempts := s.attempts ++ [attempt] })

/-- Iterated submissions (used to state the append-only attempt history). -/
def submitMany (u : User) (quiz_id : Nat) (subs : List (List Int)) (now : Nat) (s : Store) :
    Store :=
  match subs with
  | [] => s
  | a :: rest => submitMany u quiz_id rest now (submit_quiz u quiz_id a now s).2

/-- Modelled from the spec: "rounded to two decimal places using standard
rounding" — round half away from zero (equivalently half up, all quantities
being nonnegative), in hundredths, for comparison with the code's
`roundHalfEvenDiv`. -/
def specStandardRoundDiv (a b : Nat) : Nat :=
  let q := a / b
  let r := a % b
  if 2 * r < b then q else q + 1

/-- Rewrite a question's stored `correct_index` (used to state that `get_quiz`
output is independent of the correct answers). -/
def hideCorrect (f : Question → Int) (q : Question) : Question :=
  { q with correct_index := f q }

/-! Concrete fixtures used to instantiate the theorems below. -/

/-- A subscriber account. -/
def subUser : User :=
  { id := 1, email := "demo@grow.mls", password_hash := "x", name := some "Demo",
    is_subscriber := true, created_at := 0 }

/-- A non-subscriber account. -/
def nsUser : User :=
  { id := 2, email := "free@grow.mls", password_hash := "x", name := none,
    is_subscriber := false, created_at := 0 }

/-- A one-course catalog: two ordered lessons, one quiz with one question. -/
def quizBase : Quiz :=
  { id := 1, course_id := 1, lesson_id := some 1, title := "Quiz 1", pass_percent := 60 }

def stBase : Store :=
  { lessons := [ { id := 1, course_id := 1, title := "L1", content := "c1", order_index := 1 },
                 { id := 2, course_id := 1, title := "L2", content := "c2", order_index := 2 } ],
    quizzes := [quizBase],
    questions := [ { id := 1, quiz_id := 1, text := "t", choices := "[\"a\",\"b\"]",
                     correct_index := 0 } ],
    progress := [], attempts := [] }

/-- A stored quiz with zero questions. -/
def quizEmpty : Quiz :=
  { id := 1, course_id := 1, lesson_id := none, title := "Empty", pass_percent := 60 }

def stNoQuestions : Store :=
  { lessons := [], quizzes := [quizEmpty], questions := [], progress := [], attempts := [] }

/-- A 32-question quiz: submitting exactly one correct answer gives the exact
score 3.125, a representable tie that Python rounds to 3.12 (ties to even). -/
def stThirtyTwo : Store :=
  { lessons := [], quizzes := [quizEmpty],
    questions := (List.range 32).map (fun i =>
      { id := i + 1, quiz_id := 1, text := "", choices := "[]", correct_index := 0 }),
    progress := [], attempts := [] }

def answersThirtyTwo : List Int := 0 :: List.replicate 31 1

/-- A 10-question quiz with threshold 70. -/
def quizSeventy : Quiz :=
  { id := 1, course_id := 1, lesson_id := none, title := "Q70", pass_percent := 70 }

def stSeventy : Store :=
  { lessons := [], quizzes := [quizSeventy],
    questions := (List.range 10).map (fun i =>
      { id := i + 1, quiz_id := 1, text := "", choices := "[]", correct_index := 0 }),
    progress := [], attempts := [] }

def answersSeven : List Int := List.replicate 7 0 ++ List.replicate 3 1

/-- Two stores that agree everywhere except the questions' `correct_index`. -/
def stHideA : Store :=
  { lessons := [], quizzes := [quizBase],
    questions := [ { id := 1, quiz_id := 1, text := "t1", choices := "[\"a\",\"b\"]",
                     correct_index := 0 },
                   { id := 2, quiz_id := 1, text := "t2", choices := "[\"c\",\"d\"]",
                     correct_index := 1 } ],
    progress := [], attempts := [] }

def stHideB : Store :=
  { lessons := [], quizzes := [quizBase],
    questions := [ { id := 1, quiz_id := 1, text := "t1", choices := "[\"a\",\"b\"]",
                     correct_index := 1 },
                   { id := 2, quiz_id := 1, text := "t2", choices := "[\"c\",\"d\"]",
                     correct_index := 0 } ],
    progress := [], attempts := [] }

/-! Helper lemmas. -/

/-- `find?` over a list extended on the right by a matching element, when
nothing in the front part matches. -/
theorem find?_append_singleton {α : Type} (p : α → Bool) (l : List α) (x : α)
    (hl : ∀ y ∈ l, ¬p y = true) (hx : p x = true) :
    (l ++ [x]).find? p = some x := by
  induction l with
  | nil => simp [List.find?, hx]
  | cons a t ih =>
    have ha : p a = false := by
      have := hl a (by simp)
      revert this
      cases p a <;> simp
    rw [List.cons_append, List.find?]
    rw [ha]
    exact ih (fun y hy => hl y (by simp [hy]))

/-- `roundHalfEvenDiv a b` is within half a unit of `a / b` (scaled by `b`),
and lands on an even value at an exact half. -/
theorem roundHalfEvenDiv_half (a b : Nat) (hb : b ≠ 0) :
    2 * a ≤ 2 * (roundHalfEvenDiv a b * b) + b ∧
    2 * (roundHalfEvenDiv a b * b) ≤ 2 * a + b ∧
    ((2 * a = 2 * (roundHalfEvenDiv a b * b) + b ∨
        2 * (roundHalfEvenDiv a b * b) = 2 * a + b) →
      roundHalfEvenDiv a b % 2 = 0) := by
  have hb' : 0 < b := Nat.pos_of_ne_zero hb
  have hdm : b * (a / b) + a % b = a := Nat.div_add_mod a b
  have hlt : a % b < b := Nat.mod_lt a hb'
  simp only [roundHalfEvenDiv]
  generalize hqv : a / b = q at hdm ⊢
  generalize hrv : a % b = r at hdm hlt ⊢
  split_ifs with h1 h2 h3
  · rw [Nat.mul_comm q b]
    generalize b * q = m at hdm ⊢
    omega
  · rw [Nat.add_mul q 1 b, Nat.one_mul, Nat.mul_comm q b]
    generalize b * q = m at hdm ⊢
    omega
  · rw [Nat.mul_comm q b]
    generalize b * q = m at hdm ⊢
    omega
  · rw [Nat.add_mul q 1 b, Nat.one_mul, Nat.mul_comm q b]
    generalize b * q = m at hdm ⊢
    omega

/-- Full reduction of `submit_quiz` on the success path. -/
theorem submit_quiz_eq_ok (u : User) (qid : Nat) (answers : List Int) (now : Nat) (s : Store)
    (quiz : Quiz) (hq : findQuiz qid s = some quiz)
    (hlen : answers.length = (quizQuestions qid s).length)
    (hne : (quizQuestions qid s).length ≠ 0) :
    submit_quiz u qid answers now s =
      (SubmitResult.ok
          (roundHalfEvenDiv
            (10000 * ((quizQuestions qid s).zip answers).countP
              (fun p => decide (p.1.correct_index = p.2)))
            (quizQuestions qid s).length)
          (decide (100 * quiz.pass_percent ≤
            ((roundHalfEvenDiv
              (10000 * ((quizQuestions qid s).zip answers).countP
                (fun p => decide (p.1.correct_index = p.2)))
              (quizQuestions qid s).length : Nat) : Int)))
          (((quizQuestions qid s).zip answers).countP (fun p => decide (p.1.correct_index = p.2)))
          (quizQuestions qid s).length,
        { s with attempts := s.attempts ++
            [{ id := s.attempts.length + 1, user_id := u.id, quiz_id := qid,
               score100 := roundHalfEvenDiv
                 (10000 * ((quizQuestions qid s).zip answers).countP
                   (fun p => decide (p.1.correct_index = p.2)))
                 (quizQuestions qid s).length,
               passed := decide (100 * quiz.pass_percent ≤
                 ((roundHalfEvenDiv
                   (10000 * ((quizQuestions qid s).zip answers).countP
                     (fun p => decide (p.1.correct_index = p.2)))
                   (quizQuestions qid s).length : Nat) : Int)),
               answers := answers, attempted_at := now }] }) := by
  simp only [submit_quiz, hq]
  rw [if_neg (fun h => h hlen), if_neg hne]

/-! Claim theorems. -/

/-- C4: an existing quiz with a submitted answer list whose length differs
from the stored question count yields `BadRequest` and leaves the store (in
particular the `QuizAttempt` history) unchanged. -/
theorem submit_quiz_length_mismatch (u : User) (qid : Nat) (answers : List Int) (now : Nat)
    (s : Store) (quiz : Quiz) (hq : findQuiz qid s = some quiz)
    (hlen : answers.length ≠ (quizQuestions qid s).length) :
    submit_quiz u qid answers now s = (.badRequest, s) := by
  simp only [submit_quiz, hq]
  rw [if_pos hlen]

theorem submit_quiz_length_mismatch_witness :
    submit_quiz subUser 1 [0, 1] 0 stBase = (.badRequest, stBase) :=
  submit_quiz_length_mismatch subUser 1 [0, 1] 0 stBase quizBase (by decide) (by decide)

/-- C10: a stored quiz with zero questions and an empty submitted answer list
passes the length check and reaches the division `correct / len(questions)`
with a zero divisor — the uncaught `ZeroDivisionError` — with the store left
unchanged. -/
theorem submit_quiz_zero_division (u : User) (qid : Nat) (now : Nat) (s : Store)
    (quiz : Quiz) (hq : findQuiz qid s = some quiz)
    (h0 : quizQuestions qid s = []) :
    submit_quiz u qid [] now s = (.zeroDivision, s) := by
  simp [submit_quiz, hq, h0]

theorem submit_quiz_zero_division_witness :
    submit_quiz subUser 1 [] 0 stNoQuestions = (.zeroDivision, stNoQuestions) :=
  submit_quiz_zero_division subUser 1 0 stNoQuestions quizEmpty (by decide) (by decide)

/-- C7: for every user and every lesson id whatsoever, `complete_lesson` never
fails with `NotFound` or `Forbidden`: it always returns one of the two success
messages, its outcome is completely independent of the stored lessons table
(so it performs no existence check — ids resolving to no stored lesson behave
like any other) and of the user's subscriber flag (so it performs no
access-policy check), and on a first call it inserts a `Progress` row
referencing the given lesson id. -/
theorem complete_lesson_permissive (u : User) (lid : Nat) (now : Nat) (s : Store) :
    ((complete_lesson u lid now s).1 = "completed" ∨
      (complete_lesson u lid now s).1 = "already completed") ∧
    (∀ ls : List Lesson,
      complete_lesson u lid now { s with lessons := ls } =
        ((complete_lesson u lid now s).1,
         { (complete_lesson u lid now s).2 with lessons := ls })) ∧
    (∀ b : Bool,
      complete_lesson { u with is_subscriber := b } lid now s =
        complete_lesson u lid now s) ∧
    ((∀ p ∈ s.progress, ¬(p.user_id = u.id ∧ p.lesson_id = lid)) →
      (complete_lesson u lid now s).1 = "completed" ∧
      ∃ p ∈ (complete_lesson u lid now s).2.progress,
        p.user_id = u.id ∧ p.lesson_id = lid) := by
  refine ⟨?_, ?_, fun b => rfl, ?_⟩
  · cases hfp : s.progress.find? (fun p => decide (p.user_id = u.id ∧ p.lesson_id = lid)) with
    | none => left; simp only [complete_lesson, hfp]
    | some p => right; simp only [complete_lesson, hfp]
  · intro ls
    cases hfp : s.progress.find? (fun p => decide (p.user_id = u.id ∧ p.lesson_id = lid)) with
    | none =>
      have hfp' : s.progress.find?
          (fun p => decide (p.user_id = u.id) && decide (p.lesson_id = lid)) = none := by
        simpa using hfp
      simp [complete_lesson, hfp']
    | some p =>
      have hfp' : s.progress.find?
          (fun p => decide (p.user_id = u.id) && decide (p.lesson_id = lid)) = some p := by
        simpa using hfp
      simp [complete_lesson, hfp']
  · intro hnp
    have hfp : s.progress.find? (fun p => decide (p.user_id = u.id ∧ p.lesson_id = lid)) = none :=
      List.find?_eq_none.mpr (fun p hp => by simpa using hnp p hp)
    refine ⟨by simp only [complete_lesson, hfp], ?_⟩
    refine ⟨{ id := s.progress.length + 1, user_id := u.id, lesson_id := lid,
              completed_at := now }, ?_, rfl, rfl⟩
    simp only [complete_lesson, hfp]
    simp

theorem complete_lesson_permissive_witness :
    get_lesson nsUser 2 stBase = .forbidden ∧
    (complete_lesson nsUser 2 5 stBase).1 = "completed" ∧
    (∃ p ∈ (complete_lesson nsUser 2 5 stBase).2.progress,
      p.user_id = nsUser.id ∧ p.lesson_id = 2) ∧
    ((complete_lesson nsUser 999 5 stBase).1 = "completed" ∨
      (complete_lesson nsUser 999 5 stBase).1 = "already completed") ∧
    complete_lesson nsUser 999 5 { stBase with lessons := [] } =
      ((complete_lesson nsUser 999 5 stBase).1,
       { (complete_lesson nsUser 999 5 stBase).2 with lessons := [] }) := by
  have h2 := complete_lesson_permissive nsUser 2 5 stBase
  have h999 := complete_lesson_permissive nsUser 999 5 stBase
  obtain ⟨hc, hrow⟩ := h2.2.2.2 (by decide)
  exact ⟨by decide, hc, hrow, h999.1, h999.2.1 []⟩

/-- C5: starting from a store with no `Progress` row for `(user, lesson)`,
calling `complete_lesson` twice returns "completed" then "already completed",
the second call does not change the store, exactly one `Progress` row for the
pair exists afterwards, and its timestamp is the one of the first call. -/
theorem complete_lesson_idempotent (u : User) (lid t₁ t₂ : Nat) (s : Store)
    (h0 : ∀ p ∈ s.progress, ¬(p.user_id = u.id ∧ p.lesson_id = lid)) :
    (complete_lesson u lid t₁ s).1 = "completed" ∧
    (complete_lesson u lid t₂ (complete_lesson u lid t₁ s).2).1 = "already completed" ∧
    (complete_lesson u lid t₂ (complete_lesson u lid t₁ s).2).2 = (complete_lesson u lid t₁ s).2 ∧
    ((complete_lesson u lid t₂ (complete_lesson u lid t₁ s).2).2.progress.countP
        (fun p => decide (p.user_id = u.id ∧ p.lesson_id = lid))) = 1 ∧
    (∀ p ∈ (complete_lesson u lid t₂ (complete_lesson u lid t₁ s).2).2.progress,
        p.user_id = u.id → p.lesson_id = lid → p.completed_at = t₁) := by
  have hfp : s.progress.find? (fun p => decide (p.user_id = u.id ∧ p.lesson_id = lid)) = none :=
    List.find?_eq_none.mpr (fun p hp => by simpa using h0 p hp)
  have h1 : complete_lesson u lid t₁ s =
      ("completed", { s with progress := s.progress ++
        [{ id := s.progress.length + 1, user_id := u.id, lesson_id := lid,
           completed_at := t₁ }] }) := by
    simp only [complete_lesson, hfp]
  have hfp2 : (s.progress ++
      [({ id := s.progress.length + 1, user_id := u.id, lesson_id := lid,
          completed_at := t₁ } : Progress)]).find?
        (fun p => decide (p.user_id = u.id ∧ p.lesson_id = lid)) =
      some { id := s.progress.length + 1, user_id := u.id, lesson_id := lid,
             completed_at := t₁ } := by
    refine find?_append_singleton _ _ _ (fun y hy => by simpa using h0 y hy) (by simp)
  have h1b : (complete_lesson u lid t₁ s).2 =
      { s with progress := s.progress ++
        [{ id := s.progress.length + 1, user_id := u.id, lesson_id := lid,
           completed_at := t₁ }] } := by
    rw [h1]
  have h2 : complete_lesson u lid t₂ (complete_lesson u lid t₁ s).2 =
      ("already completed", (complete_lesson u lid t₁ s).2) := by
    rw [h1b]
    simp only [complete_lesson, hfp2]
  refine ⟨by rw [h1], by rw [h2], by rw [h2], ?_, ?_⟩
  · rw [h2, h1b]
    have hz : s.progress.countP (fun p => decide (p.user_id = u.id ∧ p.lesson_id = lid)) = 0 :=
      List.countP_eq_zero.mpr (fun p hp => by simpa using h0 p hp)
    rw [List.countP_append, hz]
    simp
  · intro p hp hpu hpl
    rw [h2, h1b] at hp
    simp only [List.mem_append, List.mem_singleton] at hp
    rcases hp with hp | hp
    · exact absurd ⟨hpu, hpl⟩ (h0 p hp)
    · rw [hp]

/-- C3 (amended): for a valid-length submission to an existing quiz with
`0 < N < 160` stored questions (ascending by question id), the result carries
the count of positions where the submitted index equals the stored
`correct_index`, the total `N`, and a score equal to `100 * (matches / N)` per
cent — represented in hundredths — rounded to two decimal places with ties to
even (Python `round`; below 160 questions the float computation agrees exactly
with this rounding of the exact ratio, see the header): the score is within
half a hundredth of the exact ratio and is even at an exact tie. -/
theorem submit_quiz_rounding (u : User) (qid : Nat) (answers : List Int) (now : Nat)
    (s : Store) (quiz : Quiz) (hq : findQuiz qid s = some quiz)
    (hlen : answers.length = (quizQuestions qid s).length)
    (hne : (quizQuestions qid s).length ≠ 0)
    (_hsmall : (quizQuestions qid s).length < 160) :
    ∃ sc p,
      (submit_quiz u qid answers now s).1 =
        SubmitResult.ok sc p
          (((quizQuestions qid s).zip answers).countP (fun x => decide (x.1.correct_index = x.2)))
          (quizQuestions qid s).length ∧
      sc = roundHalfEvenDiv
            (10000 * ((quizQuestions qid s).zip answers).countP
              (fun x => decide (x.1.correct_index = x.2)))
            (quizQuestions qid s).length ∧
      2 * (10000 * ((quizQuestions qid s).zip answers).countP
            (fun x => decide (x.1.correct_index = x.2))) ≤
        2 * (sc * (quizQuestions qid s).length) + (quizQuestions qid s).length ∧
      2 * (sc * (quizQuestions qid s).length) ≤
        2 * (10000 * ((quizQuestions qid s).zip answers).countP
              (fun x => decide (x.1.correct_index = x.2))) + (quizQuestions qid s).length ∧
      ((2 * (10000 * ((quizQuestions qid s).zip answers).countP
              (fun x => decide (x.1.correct_index = x.2))) =
          2 * (sc * (quizQuestions qid s).length) + (quizQuestions qid s).length ∨
        2 * (sc * (quizQuestions qid s).length) =
          2 * (10000 * ((quizQuestions qid s).zip answers).countP
                (fun x => decide (x.1.correct_index = x.2))) + (quizQuestions qid s).length) →
        sc % 2 = 0) := by
  refine ⟨roundHalfEvenDiv
      (10000 * ((quizQuestions qid s).zip answers).countP
        (fun x => decide (x.1.correct_index = x.2)))
      (quizQuestions qid s).length,
    decide (100 * quiz.pass_percent ≤
      ((roundHalfEvenDiv
        (10000 * ((quizQuestions qid s).zip answers).countP
          (fun x => decide (x.1.correct_index = x.2)))
        (quizQuestions qid s).length : Nat) : Int)), ?_, rfl, ?_, ?_, ?_⟩
  · rw [submit_quiz_eq_ok u qid answers now s quiz hq hlen hne]
  · exact (roundHalfEvenDiv_half _ _ hne).1
  · exact (roundHalfEvenDiv_half _ _ hne).2.1
  · exact (roundHalfEvenDiv_half _ _ hne).2.2

theorem submit_quiz_rounding_witness :
    ∃ sc p,
      (submit_quiz subUser 1 answersSeven 0 stSeventy).1 =
        SubmitResult.ok sc p
          (((quizQuestions 1 stSeventy).zip answersSeven).countP
            (fun x => decide (x.1.correct_index = x.2)))
          (quizQuestions 1 stSeventy).length ∧
      sc = roundHalfEvenDiv
            (10000 * ((quizQuestions 1 stSeventy).zip answersSeven).countP
              (fun x => decide (x.1.correct_index = x.2)))
            (quizQuestions 1 stSeventy).length ∧
      2 * (10000 * ((quizQuestions 1 stSeventy).zip answersSeven).countP
            (fun x => decide (x.1.correct_index = x.2))) ≤
        2 * (sc * (quizQuestions 1 stSeventy).length) + (quizQuestions 1 stSeventy).length ∧
      2 * (sc * (quizQuestions 1 stSeventy).length) ≤
        2 * (10000 * ((quizQuestions 1 stSeventy).zip answersSeven).countP
              (fun x => decide (x.1.correct_index = x.2))) + (quizQuestions 1 stSeventy).length ∧
      ((2 * (10000 * ((quizQuestions 1 stSeventy).zip answersSeven).countP
              (fun x => decide (x.1.correct_index = x.2))) =
          2 * (sc * (quizQuestions 1 stSeventy).length) + (quizQuestions 1 stSeventy).length ∨
        2 * (sc * (quizQuestions 1 stSeventy).length) =
          2 * (10000 * ((quizQuestions 1 stSeventy).zip answersSeven).countP
                (fun x => decide (x.1.correct_index = x.2))) + (quizQuestions 1 stSeventy).length) →
        sc % 2 = 0) :=
  submit_quiz_rounding subUser 1 answersSeven 0 stSeventy quizSeventy
    (by decide) (by decide) (by decide) (by decide)

/-- C3 counterexample: a 32-question quiz with exactly one correct answer has
the exact score 3.125 per cent; the code returns 3.12 (312 hundredths, ties to
even) while the claimed standard rounding of `100 * 1 / 32` gives 3.13
(313 hundredths). -/
theorem submit_quiz_rounding_counterexample :
    (submit_quiz subUser 1 answersThirtyTwo 0 stThirtyTwo).1 =
      SubmitResult.ok 312 false 1 32 ∧
    specStandardRoundDiv (10000 * 1) 32 = 313 ∧
    (312 : Nat) ≠ 313 := by decide

/-- C6: on the success path the returned `passed` flag is true exactly when the
rounded score reaches `pass_percent` (non-strict): equality passes, one
hundredth of a percent below fails. -/
theorem submit_quiz_pass_threshold (u : User) (qid : Nat) (answers : List Int) (now : Nat)
    (s : Store) (quiz : Quiz) (hq : findQuiz qid s = some quiz)
    (hlen : answers.length = (quizQuestions qid s).length)
    (hne : (quizQuestions qid s).length ≠ 0) :
    ∀ sc (p : Bool) c t, (submit_quiz u qid answers now s).1 = SubmitResult.ok sc p c t →
      ((p = true ↔ 100 * quiz.pass_percent ≤ (sc : Int)) ∧
       ((sc : Int) = 100 * quiz.pass_percent → p = true) ∧
       ((sc : Int) = 100 * quiz.pass_percent - 1 → p = false)) := by
  intro sc p c t h
  rw [submit_quiz_eq_ok u qid answers now s quiz hq hlen hne] at h
  simp only [SubmitResult.ok.injEq] at h
  obtain ⟨hsc, hp, -, -⟩ := h
  subst hsc
  constructor
  · rw [← hp]
    simp
  constructor
  · intro heq
    rw [← hp]
    simp [← heq]
  · intro hlt
    rw [← hp]
    simp only [decide_eq_false_iff_not, not_le]
    omega

theorem submit_quiz_pass_threshold_witness :
    (submit_quiz subUser 1 answersSeven 0 stSeventy).1 =
      SubmitResult.ok 7000 true 7 10 ∧
    (true = true ↔ 100 * quizSeventy.pass_percent ≤ ((7000 : Nat) : Int)) := by
  have hres : (submit_quiz subUser 1 answersSeven 0 stSeventy).1 =
      SubmitResult.ok 7000 true 7 10 := by decide
  have h := (submit_quiz_pass_threshold subUser 1 answersSeven 0 stSeventy quizSeventy
    (by decide) (by decide) (by decide)) 7000 true 7 10 hres
  exact ⟨hres, h.1⟩

/-- C1 (amended): for every quiz id that resolves to no stored quiz, both
viewing and submitting yield `NotFound`. For every existing quiz a
non-subscriber view (`get_quiz`) yields `Forbidden`; submitting, however,
performs no subscription check: a valid-length submission to an existing
non-empty quiz is graded and succeeds for any user, subscriber or not. -/
theorem quiz_access_policy (u : User) (qid : Nat) (answers : List Int) (now : Nat) (s : Store) :
    (findQuiz qid s = none →
      get_quiz u qid s = .notFound ∧ (submit_quiz u qid answers now s).1 = .notFound) ∧
    (∀ quiz, findQuiz qid s = some quiz → u.is_subscriber = false →
      get_quiz u qid s = .forbidden) ∧
    (∀ quiz, findQuiz qid s = some quiz →
      answers.length = (quizQuestions qid s).length → (quizQuestions qid s).length ≠ 0 →
      ∃ sc p, (submit_quiz u qid answers now s).1 =
        SubmitResult.ok sc p
          (((quizQuestions qid s).zip answers).countP (fun x => decide (x.1.correct_index = x.2)))
          (quizQuestions qid s).length) := by
  refine ⟨?_, ?_, ?_⟩
  · intro h
    exact ⟨by simp [get_quiz, h], by simp [submit_quiz, h]⟩
  · intro quiz hq hsub
    simp [get_quiz, hq, hsub]
  · intro quiz hq hlen hne
    exact ⟨_, _, by rw [submit_quiz_eq_ok u qid answers now s quiz hq hlen hne]⟩

theorem quiz_access_policy_witness :
    get_quiz nsUser 1 stBase = .forbidden ∧
    (∃ sc p, (submit_quiz nsUser 1 [0] 0 stBase).1 =
      SubmitResult.ok sc p
        (((quizQuestions 1 stBase).zip [0]).countP (fun x => decide (x.1.correct_index = x.2)))
        (quizQuestions 1 stBase).length) := by
  have h := quiz_access_policy nsUser 1 [0] 0 stBase
  exact ⟨h.2.1 quizBase (by decide) (by decide),
    h.2.2 quizBase (by decide) (by decide) (by decide)⟩

/-- C1 counterexample: a non-subscriber's valid submission to an existing quiz
is not rejected: it is graded, returns a success result and appends a
`QuizAttempt`, contradicting "non-subscribers always fail with Forbidden" for
`submit_quiz`. -/
theorem nonsubscriber_submit_succeeds :
    nsUser.is_subscriber = false ∧
    (submit_quiz nsUser 1 [0] 0 stBase).1 = SubmitResult.ok 10000 true 1 1 ∧
    (submit_quiz nsUser 1 [0] 0 stBase).2.attempts.length = 1 := by decide

/-- C8: successful submissions only ever append to the attempt history: after
any sequence of `k` valid submissions the prior attempt rows are unchanged (the
new store's history is the old one plus `k` new rows), every new row belongs to
the submitting user and quiz and stores its own raw submitted answer list, and
the count of rows for the `(user, quiz)` pair grows by exactly `k`. -/
theorem submit_quiz_append_only (u : User) (qid now : Nat) (subs : List (List Int)) (s : Store)
    (quiz : Quiz) (hq : findQuiz qid s = some quiz)
    (hlen : ∀ a ∈ subs, a.length = (quizQuestions qid s).length)
    (hne : (quizQuestions qid s).length ≠ 0) :
    ∃ rows : List QuizAttempt,
      (submitMany u qid subs now s).attempts = s.attempts ++ rows ∧
      rows.map QuizAttempt.answers = subs ∧
      (∀ r ∈ rows, r.user_id = u.id ∧ r.quiz_id = qid) ∧
      (submitMany u qid subs now s).attempts.countP
          (fun r => decide (r.user_id = u.id ∧ r.quiz_id = qid)) =
        s.attempts.countP (fun r => decide (r.user_id = u.id ∧ r.quiz_id = qid)) + subs.length := by
  revert hq hlen hne
  induction subs generalizing s with
  | nil =>
    intro hq hlen hne
    exact ⟨[], by simp [submitMany], by simp, by simp, by simp [submitMany]⟩
  | cons a rest ih =>
    intro hq hlen hne
    have ha : a.length = (quizQuestions qid s).length := hlen a (by simp)
    have hstep := submit_quiz_eq_ok u qid a now s quiz hq ha hne
    obtain ⟨row, hs2, hrowu, hrowq, hrowa⟩ :
        ∃ r : QuizAttempt, (submit_quiz u qid a now s).2 =
            { s with attempts := s.attempts ++ [r] } ∧
          r.user_id = u.id ∧ r.quiz_id = qid ∧ r.answers = a :=
      ⟨_, by rw [hstep], rfl, rfl, rfl⟩
    have hq' : findQuiz qid (submit_quiz u qid a now s).2 = some quiz := by
      rw [hs2]; exact hq
    have hqs' : quizQuestions qid (submit_quiz u qid a now s).2 = quizQuestions qid s := by
      rw [hs2]
      rfl
    obtain ⟨rows, h1, h2, h3, h4⟩ := ih (submit_quiz u qid a now s).2 hq'
      (fun b hb => by rw [hqs']; exact hlen b (by simp [hb]))
      (by rw [hqs']; exact hne)
    refine ⟨row :: rows, ?_, ?_, ?_, ?_⟩
    · show (submitMany u qid rest now (submit_quiz u qid a now s).2).attempts = _
      rw [h1, hs2]
      simp
    · rw [List.map_cons, hrowa, h2]
    · intro r hr
      rcases List.mem_cons.mp hr with hr | hr
      · rw [hr]; exact ⟨hrowu, hrowq⟩
      · exact h3 r hr
    · show (submitMany u qid rest now (submit_quiz u qid a now s).2).attempts.countP _ = _
      rw [h4, hs2]
      have hone : List.countP (fun r => decide (r.user_id = u.id ∧ r.quiz_id = qid)) [row] = 1 := by
        simp [List.countP_cons, hrowu, hrowq]
      show (s.attempts ++ [row]).countP _ + rest.length = _
      rw [List.countP_append, hone]
      simp [List.length_cons]
      omega

theorem submit_quiz_append_only_witness :
    (submitMany subUser 1 [[0], [0], [1]] 0 stBase).attempts.countP
        (fun r => decide (r.user_id = subUser.id ∧ r.quiz_id = 1)) = 3 := by
  obtain ⟨rows, h1, h2, h3, h4⟩ := submit_quiz_append_only subUser 1 0 [[0], [0], [1]] stBase
    quizBase (by decide) (by decide) (by decide)
  simpa using h4

theorem complete_lesson_idempotent_witness :
    (complete_lesson nsUser 7 2 stBase).1 = "completed" ∧
    (complete_lesson nsUser 7 3 (complete_lesson nsUser 7 2 stBase).2).1 = "already completed" ∧
    (complete_lesson nsUser 7 3 (complete_lesson nsUser 7 2 stBase).2).2 =
      (complete_lesson nsUser 7 2 stBase).2 ∧
    ((complete_lesson nsUser 7 3 (complete_lesson nsUser 7 2 stBase).2).2.progress.countP
        (fun p => decide (p.user_id = nsUser.id ∧ p.lesson_id = 7))) = 1 ∧
    (∀ p ∈ (complete_lesson nsUser 7 3 (complete_lesson nsUser 7 2 stBase).2).2.progress,
        p.user_id = nsUser.id → p.lesson_id = 7 → p.completed_at = 2) :=
  complete_lesson_idempotent nsUser 7 2 3 stBase (by decide)

/-- C2: lesson lookup failure yields `NotFound` before any subscription check;
a subscriber can access every existing lesson; a non-subscriber can access an
existing lesson exactly when it has the smallest `order_index` of its course,
and gets `Forbidden` otherwise.  The store is wellformed: lesson ids are
unique, and `order_index` values are unique within each course. -/
theorem lesson_access_policy (u : User) (lid : Nat) (s : Store)
    (hids : (s.lessons.map Lesson.id).Nodup)
    (hord : ∀ lesson ∈ s.lessons,
      ((s.lessons.filter (fun l => decide (l.course_id = lesson.course_id))).map
        Lesson.order_index).Nodup) :
    (findLesson lid s = none → get_lesson u lid s = .notFound) ∧
    (∀ lesson, findLesson lid s = some lesson → u.is_subscriber = true →
      ∃ out, get_lesson u lid s = .ok out) ∧
    (∀ lesson, findLesson lid s = some lesson → u.is_subscriber = false →
      (((∃ out, get_lesson u lid s = .ok out) ↔
        ∀ l ∈ s.lessons, l.course_id = lesson.course_id →
          lesson.order_index ≤ l.order_index) ∧
       ((¬ ∀ l ∈ s.lessons, l.course_id = lesson.course_id →
          lesson.order_index ≤ l.order_index) → get_lesson u lid s = .forbidden))) := by
  refine ⟨?_, ?_, ?_⟩
  · intro h
    simp [get_lesson, h]
  · intro lesson hf hsub
    refine ⟨{ id := lesson.id, title := lesson.title, content := lesson.content,
              order_index := lesson.order_index,
              quiz_id := (s.quizzes.find?
                (fun q => decide (q.lesson_id = some lesson.id))).map Quiz.id }, ?_⟩
    simp [get_lesson, hf, hsub]
  · intro lesson hf hsub
    have hmem : lesson ∈ s.lessons := List.mem_of_find?_eq_some hf
    have hfil : lesson ∈ s.lessons.filter (fun l => decide (l.course_id = lesson.course_id)) :=
      List.mem_filter.mpr ⟨hmem, by simp⟩
    have hall : lesson ∈ courseLessons lesson.course_id s :=
      (List.mem_insertionSort lessonLE).mpr hfil
    cases hcl : courseLessons lesson.course_id s with
    | nil =>
      rw [hcl] at hall
      simp at hall
    | cons first rest =>
      have hsorted : List.Sorted lessonLE (first :: rest) := by
        rw [← hcl]
        exact List.sorted_insertionSort lessonLE _
      have hfirstmin : ∀ x ∈ courseLessons lesson.course_id s, lessonLE first x := by
        intro x hx
        rw [hcl] at hx
        rcases List.mem_cons.mp hx with hx | hx
        · rw [hx]
          exact le_refl _
        · exact List.rel_of_sorted_cons hsorted x hx
      have hfirstfil :
          first ∈ s.lessons.filter (fun l => decide (l.course_id = lesson.course_id)) := by
        have : first ∈ courseLessons lesson.course_id s := by
          rw [hcl]; simp
        exact (List.mem_insertionSort lessonLE).mp this
      have hfirstmem : first ∈ s.lessons := (List.mem_filter.mp hfirstfil).1
      have hfirstcourse : first.course_id = lesson.course_id := by
        have := (List.mem_filter.mp hfirstfil).2
        simpa using this
      rw [hcl] at hall
      by_cases hid : lesson.id = first.id
      · have hlf : lesson = first := List.inj_on_of_nodup_map hids hmem hfirstmem hid
        have hres : get_lesson u lid s =
            .ok { id := lesson.id, title := lesson.title, content := lesson.content,
                  order_index := lesson.order_index,
                  quiz_id := (s.quizzes.find?
                    (fun q => decide (q.lesson_id = some lesson.id))).map Quiz.id } := by
          simp only [get_lesson, hf, hcl, hsub, Bool.not_false, Bool.true_and]
          simp [hid]
        have hmin : ∀ l ∈ s.lessons, l.course_id = lesson.course_id →
            lesson.order_index ≤ l.order_index := by
          intro l hl hc
          have hlin : l ∈ courseLessons lesson.course_id s :=
            (List.mem_insertionSort lessonLE).mpr (List.mem_filter.mpr ⟨hl, by simp [hc]⟩)
          have := hfirstmin l hlin
          rw [hlf]
          exact this
        exact ⟨⟨fun _ => hmin, fun _ => ⟨_, hres⟩⟩, fun hn => absurd hmin hn⟩
      · have hres : get_lesson u lid s = .forbidden := by
          simp only [get_lesson, hf, hcl, hsub, Bool.not_false, Bool.true_and]
          simp [hid]
        have hnmin : ¬ ∀ l ∈ s.lessons, l.course_id = lesson.course_id →
            lesson.order_index ≤ l.order_index := by
          intro hmin
          have h1 : lesson.order_index ≤ first.order_index :=
            hmin first hfirstmem hfirstcourse
          have h2 : first.order_index ≤ lesson.order_index := by
            have := hfirstmin lesson (by rw [hcl]; exact hall)
            exact this
          have hoi : lesson.order_index = first.order_index := le_antisymm h1 h2
          have : lesson = first :=
            List.inj_on_of_nodup_map (hord lesson hmem) hfil hfirstfil hoi
          exact hid (by rw [this])
        refine ⟨⟨?_, fun hmin => absurd hmin hnmin⟩, fun _ => hres⟩
        rintro ⟨out, hout⟩
        rw [hres] at hout
        exact LessonView.noConfusion hout

theorem lesson_access_policy_witness :
    (∃ out, get_lesson nsUser 1 stBase = .ok out) ∧
    get_lesson nsUser 2 stBase = .forbidden ∧
    (∃ out, get_lesson subUser 2 stBase = .ok out) ∧
    get_lesson nsUser 3 stBase = .notFound := by
  have h1 := lesson_access_policy nsUser 1 stBase (by decide) (by decide)
  have h2 := lesson_access_policy nsUser 2 stBase (by decide) (by decide)
  have h3 := lesson_access_policy subUser 2 stBase (by decide) (by decide)
  have h4 := lesson_access_policy nsUser 3 stBase (by decide) (by decide)
  refine ⟨?_, ?_, ?_, ?_⟩
  · exact ((h1.2.2 ⟨1, 1, "L1", "c1", 1⟩ (by decide) (by decide)).1).mpr (by decide)
  · exact (h2.2.2 ⟨2, 1, "L2", "c2", 2⟩ (by decide) (by decide)).2 (by decide)
  · exact h3.2.1 ⟨2, 1, "L2", "c2", 2⟩ (by decide) (by decide)
  · exact h4.1 (by decide)

/-- `filter` on the quiz id commutes with rewriting `correct_index`. -/
theorem filter_hideCorrect (f : Question → Int) (qid : Nat) (l : List Question) :
    (l.map (hideCorrect f)).filter (fun q => decide (q.quiz_id = qid)) =
      (l.filter (fun q => decide (q.quiz_id = qid))).map (hideCorrect f) := by
  induction l with
  | nil => rfl
  | cons a t ih =>
    simp only [List.map_cons, List.filter_cons]
    by_cases h : a.quiz_id = qid
    · simp [hideCorrect, h, ih]
    · simp [hideCorrect, h, ih]

/-- `orderedInsert` on the question id commutes with rewriting
`correct_index`. -/
theorem orderedInsert_hideCorrect (f : Question → Int) (a : Question) (l : List Question) :
    (l.map (hideCorrect f)).orderedInsert questionLE (hideCorrect f a) =
      (l.orderedInsert questionLE a).map (hideCorrect f) := by
  induction l with
  | nil => rfl
  | cons b t ih =>
    simp only [List.map_cons, List.orderedInsert]
    by_cases h : questionLE a b
    · rw [if_pos h, if_pos (show questionLE (hideCorrect f a) (hideCorrect f b) from h)]
      simp [List.map_cons]
    · rw [if_neg h, if_neg (show ¬questionLE (hideCorrect f a) (hideCorrect f b) from h)]
      simp only [List.map_cons, ih]

/-- Sorting by question id commutes with rewriting `correct_index`. -/
theorem insertionSort_hideCorrect (f : Question → Int) (l : List Question) :
    List.insertionSort questionLE (l.map (hideCorrect f)) =
      (List.insertionSort questionLE l).map (hideCorrect f) := by
  induction l with
  | nil => rfl
  | cons a t ih =>
    simp only [List.map_cons, List.insertionSort, ih, orderedInsert_hideCorrect]

/-- C9: `get_quiz` output is independent of the stored `correct_index` values:
two stores that agree except that every question's `correct_index` is
rewritten produce identical responses (the response model carries only each
question's id, text and choices). -/
theorem get_quiz_hides_correct_index (u : User) (qid : Nat) (s₁ s₂ : Store)
    (f : Question → Int)
    (hqz : s₂.quizzes = s₁.quizzes)
    (hqs : s₂.questions = s₁.questions.map (hideCorrect f)) :
    get_quiz u qid s₂ = get_quiz u qid s₁ := by
  have hfq : findQuiz qid s₂ = findQuiz qid s₁ := by
    rw [findQuiz, findQuiz, hqz]
  have hqq : quizQuestions qid s₂ = (quizQuestions qid s₁).map (hideCorrect f) := by
    rw [quizQuestions, quizQuestions, hqs, filter_hideCorrect, insertionSort_hideCorrect]
  cases hf : findQuiz qid s₁ with
  | none => simp only [get_quiz, hfq, hf]
  | some quiz =>
    simp only [get_quiz, hfq, hf]
    by_cases hsub : u.is_subscriber
    · simp only [hsub, Bool.not_true, if_neg, hqq, List.map_map]
      rfl
    · simp [hsub]

theorem get_quiz_hides_correct_index_witness :
    get_quiz subUser 1 stHideB = get_quiz subUser 1 stHideA :=
  get_quiz_hides_correct_index subUser 1 stHideA stHideB
    (fun q => 1 - q.correct_index) (by decide) (by decide)

end GrowMLS
